import Mathlib

/-!
Shallow embedding of the `request` Go package (nahojer/request): a fluent
HTTP request builder with header, body, authentication and timeout
configuration, a context-carried HTTP client override, and a result-decoding
wrapper (`withResult`).

Modelling conventions:
- Go strings are byte sequences; they are modelled as `List Nat` (`GoStr`).
- `http.Header` is `map[string][]string` with canonicalized keys; it is
  modelled as an association list with functional update.
- Header canonicalization follows net/textproto `CanonicalMIMEHeaderKey`:
  keys containing a byte that is not a valid header-field byte are returned
  unchanged; otherwise ASCII case is normalized (upper at start and after a
  hyphen, lower elsewhere).
- `time.Duration` is an `Int` (nanoseconds); `time.Minute` is 60e9.
- `*http.Client` values live in an explicit heap (a list of `Client`
  records indexed by allocation address), so pointer identity and in-place
  mutation of the `Timeout` field are observable.
- `context.Context` only matters for the attached client value, so a
  context is `Option (Option Nat)`: no value attached, or an attached
  client pointer which is nil (`none`) or an address (`some a`).
- External collaborators are parameters of the model: the outcome of
  `http.NewRequestWithContext` validation, the JSON/XML codecs
  (`json.Marshal`-style serializers and `json.Unmarshal`-style parsers),
  and the network transport (the dispatch outcome fed to `withResult.Do`).
  Per the Go standard library contract, `json.NewEncoder(w).Encode(v)`
  (and likewise the XML encoder used here) writes the serialization of `v`
  followed by a newline character (byte 10); the pipe used by
  `WithJSONBody`/`WithXMLBody` therefore yields `marshal v ++ [10]`.
- Go `error` values built with `fmt.Errorf("prefix%w", err)` are modelled
  by `GoErr.wrap prefix err`: the message is the prefix followed by the
  wrapped error's message, and unwrapping recovers `err`.
-/

/-- Go strings are byte strings; model them as lists of byte values. -/
abbrev GoStr := List Nat

/-- The bytes of an ASCII Lean string literal, viewed as a Go string. -/
def gostr (s : String) : GoStr := s.data.map Char.toNat

/-- ASCII lower-casing of one byte, as done by net/textproto when
canonicalizing a header key at a non-initial, non-post-hyphen position. -/
def toLowerByte (c : Nat) : Nat := if 65 ≤ c ∧ c ≤ 90 then c + 32 else c

/-- ASCII upper-casing of one byte, as done by net/textproto when
canonicalizing a header key at the start or after a hyphen. -/
def toUpperByte (c : Nat) : Nat := if 97 ≤ c ∧ c ≤ 122 then c - 32 else c

/-- net/textproto `validHeaderFieldByte`: the RFC 7230 token bytes
(digits, letters, and the bytes of "!#$%&'*+-.^_|~" plus byte 96). -/
def validHeaderFieldByte (c : Nat) : Bool :=
  decide ((48 ≤ c ∧ c ≤ 57) ∨ (65 ≤ c ∧ c ≤ 90) ∨ (97 ≤ c ∧ c ≤ 122) ∨
    c = 33 ∨ c = 35 ∨ c = 36 ∨ c = 37 ∨ c = 38 ∨ c = 39 ∨ c = 42 ∨ c = 43 ∨
    c = 45 ∨ c = 46 ∨ c = 94 ∨ c = 95 ∨ c = 96 ∨ c = 124 ∨ c = 126)

/-- The case-normalization loop of net/textproto `canonicalMIMEHeaderKey`:
upper-case a letter at the start or right after a hyphen (byte 45),
lower-case letters elsewhere. -/
def canonLoop : Bool → GoStr → GoStr
  | _, [] => []
  | upper, c :: rest =>
    let c2 := if upper then toUpperByte c else toLowerByte c
    c2 :: canonLoop (c2 == 45) rest

/-- net/textproto `CanonicalMIMEHeaderKey` (also http.CanonicalHeaderKey):
if the key contains a byte that is not a valid header-field byte it is
returned unchanged, otherwise its ASCII case is normalized. -/
def canonicalMIMEHeaderKey (k : GoStr) : GoStr :=
  if k.all validHeaderFieldByte then canonLoop true k else k

/-- `http.Header` (`map[string][]string`), as an association list from the
stored (canonical) key to its ordered list of values. -/
abbrev Header := List (GoStr × List GoStr)

/-- Map lookup on the association list representing a Go map. -/
def hFind : Header → GoStr → Option (List GoStr)
  | [], _ => none
  | (k0, vs0) :: rest, k => if k0 = k then some vs0 else hFind rest k

/-- Map store (`m[k] = vs`) on the association list representing a Go map. -/
def hStore : Header → GoStr → List GoStr → Header
  | [], k, vs => [(k, vs)]
  | (k0, vs0) :: rest, k, vs =>
    if k0 = k then (k, vs) :: rest else (k0, vs0) :: hStore rest k vs

/-- `Header.Set`: canonicalize the key and replace all existing values with
the single-element sequence `[v]`. -/
def headerSet (h : Header) (k v : GoStr) : Header :=
  hStore h (canonicalMIMEHeaderKey k) [v]

/-- `Header.Add`: canonicalize the key and append `v` to the existing value
sequence (creating it when absent). -/
def headerAdd (h : Header) (k v : GoStr) : Header :=
  hStore h (canonicalMIMEHeaderKey k)
    ((hFind h (canonicalMIMEHeaderKey k)).getD [] ++ [v])

/-- `Header.Get`: the first value stored under the canonicalized key, or the
empty string when there is none. -/
def headerGet (h : Header) (k : GoStr) : GoStr :=
  match hFind h (canonicalMIMEHeaderKey k) with
  | some (v :: _) => v
  | _ => []

/-- `Header.Values`-style observation: all values stored under the
canonicalized key, in order. -/
def headerValues (h : Header) (k : GoStr) : List GoStr :=
  (hFind h (canonicalMIMEHeaderKey k)).getD []

/-- Whether the header map has an entry (possibly with an empty first value)
under the canonicalized key. -/
def hContains (h : Header) (k : GoStr) : Bool :=
  (hFind h (canonicalMIMEHeaderKey k)).isSome

/-- Two header names differ only in ASCII letter case. -/
def caseEquivB : GoStr → GoStr → Bool
  | [], [] => true
  | a :: as, b :: bs => (toLowerByte a == toLowerByte b) && caseEquivB as bs
  | _, _ => false

/-- The `jsonMIME` constant, "application/json". -/
def jsonMIME : GoStr := gostr "application/json"

/-- The `xmlMIME` constant, "application/xml". -/
def xmlMIME : GoStr := gostr "application/xml"

/-- Go `error` values as produced by this package: either an opaque error
from an external collaborator, or `fmt.Errorf("prefix%w", cause)`. -/
inductive GoErr where
  | base : GoStr → GoErr
  | wrap : GoStr → GoErr → GoErr
deriving DecidableEq

/-- The `Error()` message of a modelled Go error. -/
def GoErr.message : GoErr → GoStr
  | .base s => s
  | .wrap p e => p ++ e.message

/-- `errors.Unwrap` on a modelled Go error. -/
def GoErr.unwrapErr : GoErr → Option GoErr
  | .wrap _ e => some e
  | .base _ => none

/-- The base64 standard-encoding alphabet of encoding/base64. -/
def base64Alphabet : GoStr :=
  gostr "ABCDEFGHIJKLMNOPQRSTUVWXYZabcdefghijklmnopqrstuvwxyz0123456789+/"

/-- The alphabet character for a 6-bit group. -/
def b64char (n : Nat) : Nat := base64Alphabet.getD n 0

/-- `base64.StdEncoding.EncodeToString`: RFC 4648 standard encoding with
padding (byte 61 is the padding character). Input bytes are < 256. -/
def base64StdEncodeToString : List Nat → GoStr
  | [] => []
  | [b0] => [b64char (b0 / 4), b64char (b0 % 4 * 16), 61, 61]
  | [b0, b1] => [b64char (b0 / 4), b64char (b0 % 4 * 16 + b1 / 16),
      b64char (b1 % 16 * 4), 61]
  | b0 :: b1 :: b2 :: rest =>
    b64char (b0 / 4) :: b64char (b0 % 4 * 16 + b1 / 16) ::
    b64char (b1 % 16 * 4 + b2 / 64) :: b64char (b2 % 64) ::
    base64StdEncodeToString rest

/-- An `http.Client` heap cell; only the `Timeout` field (a Duration in
nanoseconds) is relevant to this package. -/
structure Client where
  Timeout : Int
deriving DecidableEq

/-- `DefaultClientTimeout = time.Minute * 1` (in nanoseconds). -/
def DefaultClientTimeout : Int := 60 * 1000000000

/-- The heap of allocated `http.Client` values; an address is an index. -/
abbrev Heap := List Client

/-- A context, reduced to its only observable in this package: no client
value attached (`none`), or an attached `client` pointer that is nil
(`some none`) or an address (`some (some a)`). -/
abbrev Ctx := Option (Option Nat)

/-- `AttachClientToContext`: derive a context carrying the client pointer
under the package-private key. -/
def AttachClientToContext (_ctx : Ctx) (c : Option Nat) : Ctx := some c

/-- A context carries no usable client: either nothing is attached under the
key, or the attached pointer is nil. -/
def Ctx.unattached (ctx : Ctx) : Prop := ctx = none ∨ ctx = some none

/-- `clientFromContext`: return the attached client if present and non-nil;
otherwise allocate a fresh default client with `DefaultClientTimeout`.
Returns the resolved address together with the (possibly grown) heap. -/
def clientFromContext (ctx : Ctx) (h : Heap) : Nat × Heap :=
  match ctx with
  | some (some a) => (a, h)
  | _ => (h.length, h ++ [Client.mk DefaultClientTimeout])

/-- The `Request` builder: accumulated headers, optional per-call timeout
override, optional body source (modelled by the bytes it will yield). -/
structure Request where
  header : Header
  timeout : Option Int
  body : Option GoStr
deriving DecidableEq

/-- `New`: a fresh builder with an empty header map. -/
def New : Request := { header := [], timeout := none, body := none }

/-- `WithTimeout`: set the per-call timeout override. -/
def Request.WithTimeout (r : Request) (d : Int) : Request :=
  { r with timeout := some d }

/-- `WithBody`: set the raw body source. -/
def Request.WithBody (r : Request) (b : Option GoStr) : Request :=
  { r with body := b }

/-- The byte stream produced by `json.NewEncoder(pw).Encode(v)` through the
pipe: the JSON serialization of `v` followed by a newline character. The
serializer itself (`encoding/json`) is external and passed as `marshal`. -/
def jsonEncodeStream {α : Type} (marshal : α → GoStr) (v : α) : GoStr :=
  marshal v ++ [10]

/-- The byte stream produced by `xml.NewEncoder(pw).Encode(v)` through the
pipe, with the external XML serializer passed as `marshal`. -/
def xmlEncodeStream {α : Type} (marshal : α → GoStr) (v : α) : GoStr :=
  marshal v ++ [10]

/-- `WithJSONBody`: install the piped JSON encoding of `v` as the body and
set Content-Type to application/json. -/
def Request.WithJSONBody {α : Type} (r : Request) (marshal : α → GoStr)
    (v : α) : Request :=
  { r with body := some (jsonEncodeStream marshal v),
           header := headerSet r.header (gostr "Content-Type") jsonMIME }

/-- `WithXMLBody`: install the piped XML encoding of `v` as the body and
set Content-Type to application/xml. -/
def Request.WithXMLBody {α : Type} (r : Request) (marshal : α → GoStr)
    (v : α) : Request :=
  { r with body := some (xmlEncodeStream marshal v),
           header := headerSet r.header (gostr "Content-Type") xmlMIME }

/-- `WithHeader`: `header.Set(key, value)`. -/
def Request.WithHeader (r : Request) (key value : GoStr) : Request :=
  { r with header := headerSet r.header key value }

/-- `WithMultiValuedHeader`: `header.Add(key, value)`. -/
def Request.WithMultiValuedHeader (r : Request) (key value : GoStr) :
    Request :=
  { r with header := headerAdd r.header key value }

/-- `WithContentType`: set the Content-Type header to `s`. -/
def Request.WithContentType (r : Request) (s : GoStr) : Request :=
  { r with header := headerSet r.header (gostr "Content-Type") s }

/-- `WithBasicAuth`: set Authorization to
"Basic " ++ base64(username ++ ":" ++ password). -/
def Request.WithBasicAuth (r : Request) (username password : GoStr) :
    Request :=
  let auth := gostr "Basic " ++
    base64StdEncodeToString (username ++ gostr ":" ++ password)
  { r with header := headerSet r.header (gostr "Authorization") auth }

/-- `WithBearerAuthentication`: set Authorization to "Bearer " ++ token. -/
def Request.WithBearerAuthentication (r : Request) (token : GoStr) :
    Request :=
  let auth := gostr "Bearer " ++ token
  { r with header := headerSet r.header (gostr "Authorization") auth }

/-- The transport-level request handed by `Request.Do` to the client. -/
structure HttpRequest where
  method : GoStr
  url : GoStr
  header : Header
  body : Option GoStr
deriving DecidableEq

/-- `Request.Do`: build the transport-level request (failing early with the
external `http.NewRequestWithContext` error when `newReqErr` reports one),
resolve the client from the context, and if a timeout override is set
mutate the resolved client's `Timeout` field in place. Returns the request
and the resolved client address (what is handed to the external transport
via `c.Do(req)`), together with the post-dispatch heap. -/
def Request.Do (r : Request) (ctx : Ctx) (newReqErr : Option GoErr)
    (h : Heap) (method url : GoStr) :
    Except GoErr (HttpRequest × Nat) × Heap :=
  match newReqErr with
  | some e => (.error e, h)
  | none =>
    let resolved := clientFromContext ctx h
    let h2 := match r.timeout with
      | some d => resolved.2.set resolved.1 ⟨d⟩
      | none => resolved.2
    (.ok ({ method := method, url := url, header := r.header,
            body := r.body }, resolved.1), h2)

deriving instance DecidableEq for Except

/-- The `http.Response` observables used by `withResult.Do`: the status and
the outcome of `io.ReadAll` on the body (all bytes, or a read error). -/
structure HttpResponse where
  StatusCode : Nat
  bodyRead : Except GoErr GoStr
deriving DecidableEq

/-- The `Result` struct: the response (body drained and closed) and the raw
bytes read from it. In Go `Response` is a non-nil pointer. -/
structure Result where
  Response : HttpResponse
  RawData : GoStr
deriving DecidableEq

/-- The `withResult` wrapper: the wrapped builder and the optional
unmarshal closure installed by `WithJSONResult`/`WithXMLResult`. -/
structure withResult where
  req : Request
  unmarshal : Option (GoStr → Except GoErr Unit)

/-- The unmarshal closure installed by `WithJSONResult`, with the external
`json.Unmarshal` (writing into the captured destination) passed as
`parse`: on parse failure it wraps the cause as
`fmt.Errorf("failed to unmarshal JSON: %w", err)`. -/
def jsonUnmarshalWrap (parse : GoStr → Except GoErr Unit) (data : GoStr) :
    Except GoErr Unit :=
  match parse data with
  | .error e => .error (.wrap (gostr "failed to unmarshal JSON: ") e)
  | .ok _ => .ok ()

/-- The unmarshal closure installed by `WithXMLResult`, with the external
`xml.Unmarshal` passed as `parse`. The source wraps the cause as
`fmt.Errorf("failed to unmarshal JSON: %w", err)` — the message says JSON
even though this is the XML variant. -/
def xmlUnmarshalWrap (parse : GoStr → Except GoErr Unit) (data : GoStr) :
    Except GoErr Unit :=
  match parse data with
  | .error e => .error (.wrap (gostr "failed to unmarshal JSON: ") e)
  | .ok _ => .ok ()

/-- `WithResult`: wrap the builder with no unmarshal closure. -/
def Request.WithResult (r : Request) : withResult :=
  { req := r, unmarshal := none }

/-- `WithJSONResult`: set Accept to application/json when
`header.Get("Accept")` is empty, and install the JSON unmarshal closure. -/
def Request.WithJSONResult (r : Request)
    (parse : GoStr → Except GoErr Unit) : withResult :=
  { req :=
      if headerGet r.header (gostr "Accept") = [] then
        { r with header := headerSet r.header (gostr "Accept") jsonMIME }
      else r,
    unmarshal := some (jsonUnmarshalWrap parse) }

/-- `WithXMLResult`: set Accept to application/xml when
`header.Get("Accept")` is empty, and install the XML unmarshal closure. -/
def Request.WithXMLResult (r : Request)
    (parse : GoStr → Except GoErr Unit) : withResult :=
  { req :=
      if headerGet r.header (gostr "Accept") = [] then
        { r with header := headerSet r.header (gostr "Accept") xmlMIME }
      else r,
    unmarshal := some (xmlUnmarshalWrap parse) }

/-- `withResult.Do`: given the outcome of the wrapped `Request.Do` dispatch
through the external transport (`dispatch`), read the body, run the
unmarshal closure when installed, and return Go's two return values
`(*Result, error)` paired with whether `resp.Body.Close()` ran. The
`defer resp.Body.Close()` right after a successful dispatch means the
close flag is true on every later return path. -/
def withResult.Do (wr : withResult)
    (dispatch : Except GoErr HttpResponse) :
    (Option Result × Option GoErr) × Bool :=
  match dispatch with
  | .error e => ((none, some e), false)
  | .ok resp =>
    match resp.bodyRead with
    | .error e =>
      ((none, some (.wrap (gostr "failed to read response body: ") e)), true)
    | .ok data =>
      match wr.unmarshal with
      | some u =>
        match u data with
        | .error e => ((none, some e), true)
        | .ok _ => ((some { Response := resp, RawData := data }, none), true)
      | none => ((some { Response := resp, RawData := data }, none), true)

/-- A parse function (external codec) that always succeeds. -/
def exParse : GoStr → Except GoErr Unit := fun _ => .ok ()

/-- A parse function representing `json.Unmarshal` on malformed input such
as the bytes of "(open brace)\"id\":", which always fails. -/
def exParseFail : GoStr → Except GoErr Unit :=
  fun _ => .error (.base (gostr "unexpected end of JSON input"))

/-- A parse function representing `xml.Unmarshal` on malformed input. -/
def exParseXMLFail : GoStr → Except GoErr Unit :=
  fun _ => .error (.base (gostr "XML syntax error on line 1"))

/-- A concrete response whose body is the malformed JSON from the spec. -/
def C1resp : HttpResponse :=
  { StatusCode := 200, bodyRead := .ok (gostr "\x7b\"id\":") }

/-- A concrete response whose body read fails partway. -/
def C2resp : HttpResponse :=
  { StatusCode := 200, bodyRead := .error (.base (gostr "read failed")) }

/-- A concrete external JSON serializer for a payload that is its message
string, matching the repository's own example payload shape. -/
def examplePayloadMarshal : GoStr → GoStr :=
  fun m => gostr "\x7b\"message\":\"" ++ m ++ gostr "\"\x7d"

/-- A concrete builder whose Accept header was explicitly set to the empty
string by the caller. -/
def C5rEmptyAccept : Request := New.WithHeader (gostr "Accept") (gostr "")

/-- A concrete builder whose Accept header was set to application/xml. -/
def C5rXMLAccept : Request := New.WithHeader (gostr "Accept") xmlMIME

/-! ## Helper lemmas about the header map and the heap -/

/-- Looking up a key right after storing it yields the stored values. -/
theorem hFind_hStore_self (h : Header) (k : GoStr) (vs : List GoStr) :
    hFind (hStore h k vs) k = some vs := by
  induction h with
  | nil => simp [hStore, hFind]
  | cons p rest ih =>
    obtain ⟨k0, vs0⟩ := p
    by_cases hp : k0 = k
    · simp [hStore, hFind, hp]
    · simp [hStore, hFind, hp, ih]

/-- `Get` after `Set` under the same name yields the set value. -/
theorem headerGet_headerSet (h : Header) (k v : GoStr) :
    headerGet (headerSet h k v) k = v := by
  simp [headerGet, headerSet, hFind_hStore_self]

/-- Upper-casing respects agreement of lower-cased bytes. -/
theorem toUpperByte_congr (a b : Nat) (hab : toLowerByte a = toLowerByte b) :
    toUpperByte a = toUpperByte b := by
  unfold toLowerByte at hab
  unfold toUpperByte
  split_ifs at hab ⊢ <;> omega

/-- Byte validity for header fields respects agreement of lower-cased
bytes: a byte and its case-variant are both valid or both invalid. -/
theorem validHeaderFieldByte_congr (a b : Nat)
    (hab : toLowerByte a = toLowerByte b) :
    validHeaderFieldByte a = validHeaderFieldByte b := by
  unfold toLowerByte at hab
  unfold validHeaderFieldByte
  rw [decide_eq_decide]
  split_ifs at hab <;> omega

/-- The canonicalization loop sends names differing only in letter case to
the same canonical name. -/
theorem canonLoop_congr (k1 : GoStr) : ∀ (u : Bool) (k2 : GoStr),
    caseEquivB k1 k2 = true → canonLoop u k1 = canonLoop u k2 := by
  induction k1 with
  | nil =>
    intro u k2 hk
    cases k2 with
    | nil => rfl
    | cons b bs => simp [caseEquivB] at hk
  | cons a as ih =>
    intro u k2 hk
    cases k2 with
    | nil => simp [caseEquivB] at hk
    | cons b bs =>
      simp only [caseEquivB, Bool.and_eq_true, beq_iff_eq] at hk
      have hc : (if u then toUpperByte a else toLowerByte a) =
          (if u then toUpperByte b else toLowerByte b) := by
        cases u
        · simpa using hk.1
        · simpa using toUpperByte_congr a b hk.1
      simp only [canonLoop, hc, ih (((if u then toUpperByte b
        else toLowerByte b) == 45)) bs hk.2]

/-- Validity of all bytes is preserved across a case-variant name. -/
theorem all_valid_congr (k1 : GoStr) : ∀ (k2 : GoStr),
    caseEquivB k1 k2 = true → k1.all validHeaderFieldByte = true →
    k2.all validHeaderFieldByte = true := by
  induction k1 with
  | nil =>
    intro k2 hk _
    cases k2 with
    | nil => rfl
    | cons b bs => simp [caseEquivB] at hk
  | cons a as ih =>
    intro k2 hk hv
    cases k2 with
    | nil => simp [caseEquivB] at hk
    | cons b bs =>
      simp only [caseEquivB, Bool.and_eq_true, beq_iff_eq] at hk
      simp only [List.all_cons, Bool.and_eq_true] at hv ⊢
      exact ⟨by rw [← validHeaderFieldByte_congr a b hk.1]; exact hv.1,
        ih bs hk.2 hv.2⟩

/-- Names differing only in letter case and made of valid header-field
bytes have the same canonical form. -/
theorem canonicalMIMEHeaderKey_congr (k1 k2 : GoStr)
    (hk : caseEquivB k1 k2 = true)
    (hv : k1.all validHeaderFieldByte = true) :
    canonicalMIMEHeaderKey k1 = canonicalMIMEHeaderKey k2 := by
  unfold canonicalMIMEHeaderKey
  rw [hv, all_valid_congr k1 k2 hk hv]
  simpa using canonLoop_congr k1 true k2 hk

/-- Overwriting the final cell of a one-longer list. -/
theorem set_append_length (h : Heap) (c c2 : Client) :
    (h ++ [c]).set h.length c2 = h ++ [c2] := by
  induction h with
  | nil => rfl
  | cons x xs ih =>
    show x :: ((xs ++ [c]).set xs.length c2) = x :: (xs ++ [c2])
    rw [ih]

/-- A list has no cell at its own length. -/
theorem get?_length_none (h : Heap) : h.get? h.length = none := by
  induction h with
  | nil => rfl
  | cons x xs ih => exact ih

/-- The cell appended at the end of a list sits at the old length. -/
theorem get?_append_length (h : Heap) (c : Client) :
    (h ++ [c]).get? h.length = some c := by
  induction h with
  | nil => rfl
  | cons x xs ih => exact ih

/-- Cells below the old length are untouched by appending. -/
theorem get?_append_lt (h : Heap) (c : Client) (i : Nat)
    (hi : i < h.length) : (h ++ [c]).get? i = h.get? i := by
  induction h generalizing i with
  | nil => simp at hi
  | cons x xs ih =>
    cases i with
    | zero => rfl
    | succ j =>
      have hj : j < xs.length := by simpa using hi
      simpa using ih j hj

/-- Overwriting a cell that exists makes the new value visible there. -/
theorem get?_set_self (h : Heap) (a : Nat) (c : Client)
    (ha : a < h.length) : (h.set a c).get? a = some c := by
  induction h generalizing a with
  | nil => simp at ha
  | cons x xs ih =>
    cases a with
    | zero => rfl
    | succ b =>
      have hb : b < xs.length := by simpa using ha
      exact ih b hb

/-- Overwriting one cell leaves every other cell unchanged. -/
theorem get?_set_other (h : Heap) (a i : Nat) (c : Client)
    (hne : i ≠ a) : (h.set a c).get? i = h.get? i := by
  induction h generalizing a i with
  | nil => rfl
  | cons x xs ih =>
    cases a with
    | zero =>
      cases i with
      | zero => exact absurd rfl hne
      | succ j => rfl
    | succ b =>
      cases i with
      | zero => rfl
      | succ j =>
        have hj : j ≠ b := fun hjb => hne (by rw [hjb])
        exact ih b j hj

/-- Sanity check of the base64 model on the spec's example input. -/
theorem base64_example :
    base64StdEncodeToString (gostr "u:p") = gostr "dTpw" := by decide

/-! ## Claim C1 -/

/-- Claim C1 as stated is false: on the spec's malformed JSON body the
decode fails with the wrapped parse error, but `withResult.Do` returns
Go's `(nil, err)` — the `Result` pointer, and hence the response metadata,
is nil rather than non-null. -/
theorem C1_counterexample :
    ((New.WithJSONResult exParseFail).Do (.ok C1resp)).1.2 =
      some (.wrap (gostr "failed to unmarshal JSON: ")
        (.base (gostr "unexpected end of JSON input"))) ∧
    ((New.WithJSONResult exParseFail).Do (.ok C1resp)).1.1 = none := by
  decide

/-- Claim C1 (amended): for every response whose body is malformed for the
configured JSON decoder, `withResult.Do` fails with a decode error that
wraps the underlying parse failure (message "failed to unmarshal JSON: "
followed by the cause), the returned `Result` is nil (so no response
metadata reaches the caller), and the body was still closed. -/
theorem C1_decode_error_nil_result (r : Request)
    (parse : GoStr → Except GoErr Unit) (resp : HttpResponse)
    (data : GoStr) (e : GoErr) (hread : resp.bodyRead = .ok data)
    (hparse : parse data = .error e) :
    (r.WithJSONResult parse).Do (.ok resp) =
      ((none, some (.wrap (gostr "failed to unmarshal JSON: ") e)), true) := by
  simp [withResult.Do, Request.WithJSONResult, jsonUnmarshalWrap, hread,
    hparse]

/-- Witness for C1: the amended theorem evaluated at the spec's concrete
malformed-JSON scenario. -/
theorem C1_decode_error_nil_result_witness :
    (New.WithJSONResult exParseFail).Do (.ok C1resp) =
      ((none, some (.wrap (gostr "failed to unmarshal JSON: ")
        (.base (gostr "unexpected end of JSON input")))), true) :=
  C1_decode_error_nil_result New exParseFail C1resp (gostr "\x7b\"id\":")
    (.base (gostr "unexpected end of JSON input")) rfl rfl

/-! ## Claim C2 -/

/-- Claim C2: whenever the underlying dispatch succeeds, the response body
is closed on every exit path of `withResult.Do` — read success, read
failure partway (in which case Do fails with the wrapped body-read error),
or decode failure. -/
theorem C2_body_closed (wr : withResult)
    (dispatch : Except GoErr HttpResponse) (resp : HttpResponse)
    (hdisp : dispatch = .ok resp) :
    (wr.Do dispatch).2 = true ∧
    (∀ e, resp.bodyRead = .error e →
      (wr.Do dispatch).1 =
        (none, some (.wrap (gostr "failed to read response body: ") e))) := by
  subst hdisp
  constructor
  · rcases hb : resp.bodyRead with e | data
    · simp [withResult.Do, hb]
    · rcases hu : wr.unmarshal with _ | uf
      · simp [withResult.Do, hb, hu]
      · rcases hud : uf data with e | x
        · simp [withResult.Do, hb, hu, hud]
        · simp [withResult.Do, hb, hu, hud]
  · intro e he
    simp [withResult.Do, he]

/-- Witness for C2: a concrete dispatch whose body read fails partway; the
body is closed and the body-read error is returned. -/
theorem C2_body_closed_witness :
    ((New.WithResult).Do (.ok C2resp)).2 = true ∧
    ((New.WithResult).Do (.ok C2resp)).1 =
      (none, some (.wrap (gostr "failed to read response body: ")
        (.base (gostr "read failed")))) :=
  ⟨(C2_body_closed New.WithResult (.ok C2resp) C2resp rfl).1,
   (C2_body_closed New.WithResult (.ok C2resp) C2resp rfl).2
     (.base (gostr "read failed")) rfl⟩

/-! ## Claim C3 -/

/-- Claim C3 as stated is false: the piped `json.NewEncoder(pw).Encode(v)`
writes the JSON serialization of `v` followed by a newline character, so
the request body is not byte-for-byte equal to the standalone JSON
serialization of `v`. -/
theorem C3_counterexample :
    (New.WithJSONBody examplePayloadMarshal (gostr "hi")).body ≠
      some (examplePayloadMarshal (gostr "hi")) := by
  decide

/-- Claim C3 (amended): for every value `v`, configuring the builder with
`WithJSONBody(v)` produces a request body byte-for-byte equal to the
standalone JSON serialization of `v` followed by a single newline byte,
and sets Content-Type to application/json, overwriting any previously set
Content-Type. -/
theorem C3_json_body {α : Type} (r : Request) (marshal : α → GoStr)
    (v : α) :
    (r.WithJSONBody marshal v).body = some (marshal v ++ [10]) ∧
    headerGet (r.WithJSONBody marshal v).header (gostr "Content-Type") =
      jsonMIME := by
  exact ⟨rfl, headerGet_headerSet r.header (gostr "Content-Type") jsonMIME⟩

/-! ## Claim C4 -/

/-- Claim C4: resolving the client from a context with no attached (or a
nil) client yields a freshly constructed default client — allocated at an
address not present in the prior heap — whose timeout equals
`DefaultClientTimeout`; resolving from a context produced by attaching a
non-nil client returns exactly that client, with the heap unchanged. -/
theorem C4_resolve (ctx : Ctx) (h : Heap) (a : Nat)
    (hun : Ctx.unattached ctx) :
    clientFromContext ctx h = (h.length, h ++ [Client.mk DefaultClientTimeout]) ∧
    h.get? h.length = none ∧
    (h ++ [Client.mk DefaultClientTimeout]).get? h.length =
      some (Client.mk DefaultClientTimeout) ∧
    clientFromContext (AttachClientToContext ctx (some a)) h = (a, h) := by
  refine ⟨?_, get?_length_none h, get?_append_length h _, rfl⟩
  rcases hun with h1 | h1 <;> subst h1 <;> rfl

/-- Witness for C4 at a concrete empty heap and context. -/
theorem C4_resolve_witness :
    clientFromContext none [] = (0, [Client.mk DefaultClientTimeout]) ∧
    ([] : Heap).get? 0 = none ∧
    ([Client.mk DefaultClientTimeout] : Heap).get? 0 = some (Client.mk DefaultClientTimeout) ∧
    clientFromContext (AttachClientToContext none (some 7)) [] = (7, []) :=
  C4_resolve none [] 7 (Or.inl rfl)

/-! ## Claim C5 -/

/-- Claim C5 as stated is false: an Accept header the caller explicitly
set to the empty string is an existing Accept header, yet `WithJSONResult`
overwrites it with application/json because `header.Get("Accept")` returns
the empty string for it. -/
theorem C5_counterexample :
    hContains C5rEmptyAccept.header (gostr "Accept") = true ∧
    (C5rEmptyAccept.WithJSONResult exParse).req ≠ C5rEmptyAccept ∧
    headerGet (C5rEmptyAccept.WithJSONResult exParse).req.header
      (gostr "Accept") = jsonMIME := by
  decide

/-- Claim C5 (amended): `WithJSONResult` sets Accept to application/json
if and only if `header.Get("Accept")` returns the empty string (no Accept
value, or a first value that is empty); when the existing Accept value is
non-empty — e.g. application/xml — the builder is left untouched. The XML
variant behaves the same with application/xml. -/
theorem C5_accept_header (r : Request)
    (parse : GoStr → Except GoErr Unit) :
    (headerGet r.header (gostr "Accept") = [] →
      headerGet (r.WithJSONResult parse).req.header (gostr "Accept") =
        jsonMIME ∧
      headerGet (r.WithXMLResult parse).req.header (gostr "Accept") =
        xmlMIME) ∧
    (headerGet r.header (gostr "Accept") ≠ [] →
      (r.WithJSONResult parse).req = r ∧
      (r.WithXMLResult parse).req = r) := by
  constructor
  · intro he
    constructor
    · simp [Request.WithJSONResult, he, headerGet_headerSet]
    · simp [Request.WithXMLResult, he, headerGet_headerSet]
  · intro hne
    constructor
    · simp [Request.WithJSONResult, hne]
    · simp [Request.WithXMLResult, hne]

/-- Witness for C5: on a fresh builder Accept becomes application/json,
and a builder with Accept already application/xml is left untouched. -/
theorem C5_accept_header_witness :
    headerGet (New.WithJSONResult exParse).req.header (gostr "Accept") =
      jsonMIME ∧
    (C5rXMLAccept.WithJSONResult exParse).req = C5rXMLAccept :=
  ⟨((C5_accept_header New exParse).1 (by decide)).1,
   ((C5_accept_header C5rXMLAccept exParse).2 (by decide)).1⟩

/-! ## Claim C6 -/

/-- Claim C6: on the same canonical name, `Set` after any prior operations
replaces all values with the single-element sequence, and an `Add` appends
its value after all previously accumulated values, so consecutive `Add`s
accumulate in call order. -/
theorem C6_set_replaces_add_appends (h : Header) (k k2 v w : GoStr)
    (hc : canonicalMIMEHeaderKey k2 = canonicalMIMEHeaderKey k) :
    headerValues (headerSet h k2 v) k = [v] ∧
    headerValues (headerAdd h k2 w) k = headerValues h k ++ [w] := by
  constructor
  · simp [headerValues, headerSet, hc, hFind_hStore_self]
  · simp [headerValues, headerAdd, hc, hFind_hStore_self]

/-- Witness for C6: after two `Add`s the values accumulate in call order,
and a `Set` on the same name replaces them with a single value. -/
theorem C6_set_replaces_add_appends_witness :
    headerValues (headerSet (headerAdd (headerAdd [] (gostr "X-Id")
      (gostr "1")) (gostr "X-Id") (gostr "2")) (gostr "X-Id")
      (gostr "3")) (gostr "X-Id") = [gostr "3"] ∧
    headerValues (headerAdd (headerAdd (headerAdd [] (gostr "X-Id")
      (gostr "1")) (gostr "X-Id") (gostr "2")) (gostr "X-Id")
      (gostr "4")) (gostr "X-Id") =
      headerValues (headerAdd (headerAdd [] (gostr "X-Id") (gostr "1"))
        (gostr "X-Id") (gostr "2")) (gostr "X-Id") ++ [gostr "4"] :=
  C6_set_replaces_add_appends
    (headerAdd (headerAdd [] (gostr "X-Id") (gostr "1")) (gostr "X-Id")
      (gostr "2"))
    (gostr "X-Id") (gostr "X-Id") (gostr "3") (gostr "4") rfl

/-! ## Claim C7 -/

/-- Claim C7 as stated is false: for names containing a byte that is not a
valid header-field byte (here a space), canonicalization leaves the name
unchanged, so two casings of the same name are distinct keys — a `Set`
under "a b" is not observed by a lookup under "A B". -/
theorem C7_counterexample :
    caseEquivB (gostr "a b") (gostr "A B") = true ∧
    headerGet (headerSet [] (gostr "a b") (gostr "x")) (gostr "A B") ≠
      gostr "x" ∧
    headerGet (headerSet [] (gostr "a b") (gostr "x")) (gostr "a b") =
      gostr "x" := by
  decide

/-- Claim C7 (amended): for names differing only in ASCII letter case and
consisting entirely of valid header-field bytes, `Set` and `Add` under one
casing are observed by lookups under the other casing. -/
theorem C7_header_case_insensitive (h : Header) (k1 k2 v : GoStr)
    (hcase : caseEquivB k1 k2 = true)
    (hvalid : k1.all validHeaderFieldByte = true) :
    headerGet (headerSet h k1 v) k2 = v ∧
    headerValues (headerAdd h k1 v) k2 = headerValues h k2 ++ [v] := by
  have hc := canonicalMIMEHeaderKey_congr k1 k2 hcase hvalid
  constructor
  · simp [headerGet, headerSet, ← hc, hFind_hStore_self]
  · simp [headerValues, headerAdd, ← hc, hFind_hStore_self]

/-- Witness for C7 at the valid case-variant pair "content-type" and
"Content-Type". -/
theorem C7_header_case_insensitive_witness :
    headerGet (headerSet [] (gostr "content-type") (gostr "x"))
      (gostr "Content-Type") = gostr "x" ∧
    headerValues (headerAdd [] (gostr "content-type") (gostr "x"))
      (gostr "Content-Type") =
      headerValues ([] : Header) (gostr "Content-Type") ++ [gostr "x"] :=
  C7_header_case_insensitive [] (gostr "content-type")
    (gostr "Content-Type") (gostr "x") (by decide) (by decide)

/-! ## Claim C8 -/

/-- Claim C8: for every dispatch with a per-call timeout override set,
`Do` applies the override by mutating the `Timeout` field of the resolved
client in place — the post-dispatch heap is the resolution heap with the
resolved address's cell overwritten — including the context-attached case,
where the attached client's cell now holds the override and every other
client is untouched (the sharing hazard). And because resolution with no
attached client constructs a fresh default client per call, that mutation
writes a brand-new address (previously allocated clients untouched), and
any later dispatch that also has no context-attached client resolves yet
another fresh client with `DefaultClientTimeout`, so the mutation cannot
leak into unrelated dispatches that did not share an attached client. -/
theorem C8_timeout_override (r : Request) (d : Int) (ctx : Ctx) (h : Heap)
    (method url : GoStr) (ht : r.timeout = some d) :
    (r.Do ctx none h method url).1 =
      .ok ({ method := method, url := url, header := r.header,
             body := r.body }, (clientFromContext ctx h).1) ∧
    (r.Do ctx none h method url).2 =
      (clientFromContext ctx h).2.set (clientFromContext ctx h).1
        (Client.mk d) ∧
    (∀ a, ctx = some (some a) → a < h.length →
      (r.Do ctx none h method url).2.get? a = some (Client.mk d) ∧
      (∀ i, i ≠ a → (r.Do ctx none h method url).2.get? i = h.get? i)) ∧
    (Ctx.unattached ctx →
      (r.Do ctx none h method url).2 = h ++ [Client.mk d] ∧
      (h ++ [Client.mk d]).get? h.length = some (Client.mk d) ∧
      (∀ i, i < h.length → (h ++ [Client.mk d]).get? i = h.get? i) ∧
      (∀ ctx2 : Ctx, Ctx.unattached ctx2 →
        clientFromContext ctx2 (h ++ [Client.mk d]) =
          (h.length + 1,
            (h ++ [Client.mk d]) ++ [Client.mk DefaultClientTimeout]))) := by
  refine ⟨?_, ?_, ?_, ?_⟩
  · simp [Request.Do, ht]
  · simp [Request.Do, ht]
  · intro a ha hlt
    subst ha
    constructor
    · simpa [Request.Do, ht, clientFromContext] using
        get?_set_self h a (Client.mk d) hlt
    · intro i hi
      simpa [Request.Do, ht, clientFromContext] using
        get?_set_other h a i (Client.mk d) hi
  · intro hun
    have hres : clientFromContext ctx h =
        (h.length, h ++ [Client.mk DefaultClientTimeout]) := by
      rcases hun with h1 | h1 <;> subst h1 <;> rfl
    refine ⟨?_, get?_append_length h _,
      fun i hi => get?_append_lt h _ i hi, ?_⟩
    · simp [Request.Do, hres, ht, set_append_length]
    · intro ctx2 hun2
      rcases hun2 with h1 | h1 <;> subst h1 <;>
        simp [clientFromContext, List.length_append]

/-- Witness for C8: a builder with a 5ns override mutates an attached
client (address 0, old timeout 7) in place, and on an unattached context
the mutation lands in a fresh client which later unattached resolutions do
not reuse. -/
theorem C8_timeout_override_witness :
    ((New.WithTimeout 5).Do (some (some 0)) none [Client.mk 7] (gostr "GET")
      (gostr "http://x")).2.get? 0 = some (Client.mk 5) ∧
    ((New.WithTimeout 5).Do (some (some 0)) none [Client.mk 7] (gostr "GET")
      (gostr "http://x")).1 =
      .ok ({ method := gostr "GET", url := gostr "http://x",
             header := [], body := none }, 0) ∧
    ((New.WithTimeout 5).Do none none [] (gostr "GET")
      (gostr "http://x")).2 = [Client.mk 5] ∧
    (∀ ctx2 : Ctx, Ctx.unattached ctx2 →
      clientFromContext ctx2 [Client.mk 5] =
        (1, [Client.mk 5, Client.mk DefaultClientTimeout])) :=
  ⟨((C8_timeout_override (New.WithTimeout 5) 5 (some (some 0)) [Client.mk 7]
      (gostr "GET") (gostr "http://x") rfl).2.2.1 0 rfl (by decide)).1,
   (C8_timeout_override (New.WithTimeout 5) 5 (some (some 0)) [Client.mk 7]
      (gostr "GET") (gostr "http://x") rfl).1,
   ((C8_timeout_override (New.WithTimeout 5) 5 none [] (gostr "GET")
      (gostr "http://x") rfl).2.2.2 (Or.inl rfl)).1,
   ((C8_timeout_override (New.WithTimeout 5) 5 none [] (gostr "GET")
      (gostr "http://x") rfl).2.2.2 (Or.inl rfl)).2.2.2⟩

/-! ## Claim C9 -/

/-- Claim C9: for every username and password, `WithBasicAuth` sets the
Authorization header to exactly "Basic " followed by the standard base64
encoding of username ++ ":" ++ password. -/
theorem C9_basic_auth (r : Request) (username password : GoStr) :
    headerGet (r.WithBasicAuth username password).header
      (gostr "Authorization") =
      gostr "Basic " ++
        base64StdEncodeToString (username ++ gostr ":" ++ password) := by
  simp [Request.WithBasicAuth, headerGet_headerSet]

/-! ## Claim C10 -/

/-- Claim C10: the decode function installed by `WithXMLResult` wraps every
XML parse failure with the message "failed to unmarshal JSON: " — the very
wrapper the JSON variant produces — and that wrapper text contains neither
an 'X' nor an 'x' byte, so it cannot identify the failing format as XML. -/
theorem C10_xml_error_text (r : Request)
    (parse : GoStr → Except GoErr Unit) (data : GoStr) (e : GoErr)
    (hp : parse data = .error e) :
    (r.WithXMLResult parse).unmarshal = some (xmlUnmarshalWrap parse) ∧
    xmlUnmarshalWrap parse data =
      .error (.wrap (gostr "failed to unmarshal JSON: ") e) ∧
    xmlUnmarshalWrap parse data = jsonUnmarshalWrap parse data ∧
    (88 ∉ gostr "failed to unmarshal JSON: " ∧
     120 ∉ gostr "failed to unmarshal JSON: ") := by
  refine ⟨rfl, ?_, ?_, by decide⟩
  · simp [xmlUnmarshalWrap, hp]
  · simp [xmlUnmarshalWrap, jsonUnmarshalWrap]

/-- Witness for C10 at a concrete failing XML parse. -/
theorem C10_xml_error_text_witness :
    (New.WithXMLResult exParseXMLFail).unmarshal =
      some (xmlUnmarshalWrap exParseXMLFail) ∧
    xmlUnmarshalWrap exParseXMLFail (gostr "<") =
      .error (.wrap (gostr "failed to unmarshal JSON: ")
        (.base (gostr "XML syntax error on line 1"))) ∧
    xmlUnmarshalWrap exParseXMLFail (gostr "<") =
      jsonUnmarshalWrap exParseXMLFail (gostr "<") ∧
    (88 ∉ gostr "failed to unmarshal JSON: " ∧
     120 ∉ gostr "failed to unmarshal JSON: ") :=
  C10_xml_error_text New exParseXMLFail (gostr "<")
    (.base (gostr "XML syntax error on line 1")) rfl
